import Mathlib

/-!
# internal/helper/helper.go

A shallow embedding of package `helper` of ubuntu-image: the stream capture
`CaptureStd`, the host probes `GetHostArch` and `GetHostSuite`, the table
`getQemuStaticForArch`, the working-directory guard `SaveCWD` and the
orchestrator `RunLiveBuild`.

The Go functions act on the process and on the operating system.  The
process state the code reads and writes is the record `World`; what the
operating system and the external programs answer is the record `Host`.
Every Go function that has an effect is a function `World → α × World`.
-/

namespace Helper

/-! ## Values -/

/-- A Go `error` value.  `external` is an error handed over by `os`, `os/exec`
or `osutil`; `errorf` is a new error built by `fmt.Errorf`. -/
inductive GoError where
  | external (msg : String)
  | errorf (msg : String)
deriving DecidableEq, Repr

/-- The method `Error()` of an error: its message. -/
def GoError.Error : GoError → String
  | .external msg => msg
  | .errorf msg => msg

/-- An open file (`*os.File`), named by a number. -/
abbrev File := Nat

/-- The fields of `exec.Cmd` that the package sets or leaves at their zero
value.  `Env = none` is Go's nil slice: the child inherits the environment. -/
structure Cmd where
  Path : String
  Args : List String
  Env : Option (List String)
  Stdout : Option File
  Stderr : Option File
deriving DecidableEq, Repr

/-- `exec.Command(name, arg...)`: the argument vector starts with the name;
`Path` holds the name, its lookup is part of the run. -/
def Command (name : String) (arg : List String) : Cmd :=
  { Path := name, Args := name :: arg, Env := none, Stdout := none, Stderr := none }

/-- `unicode.IsSpace`: the white space of Latin-1 (tab, line feed, vertical
tab, form feed, carriage return, space, U+0085, U+00A0) and the other code
points with the Unicode property White_Space. -/
def isSpace (c : Char) : Bool :=
  let n := c.toNat
  (9 ≤ n && n ≤ 13) || n == 0x20 || n == 0x85 || n == 0xA0 || n == 0x1680 ||
  (0x2000 ≤ n && n ≤ 0x200A) || n == 0x2028 || n == 0x2029 || n == 0x202F ||
  n == 0x205F || n == 0x3000

/-- `strings.TrimSpace`: the string without its leading and trailing white space. -/
def TrimSpace (s : String) : String :=
  String.mk (((s.data.dropWhile isSpace).reverse.dropWhile isSpace).reverse)

/-! ## The process and its host -/

/-- What the process did to the outside, in order: the external commands it
ran (a captured `Output`, or a `Run` with the error the run returned), the
files it copied, the directory changes it asked for, the lines it printed and
the files it closed. -/
inductive Event where
  | output (c : Cmd)
  | copy (src dst : String)
  | chdir (dir : String)
  | println (c : Cmd)
  | run (c : Cmd) (err : Option GoError)
  | close (f : File)
deriving DecidableEq, Repr

/-- The state of the process: its working directory (an absolute name), the
directories that exist and can be entered, the `*os.File` variables by
address (`os.Stdout` and `os.Stderr` among them), the boolean variables
captured by closures by address, the next unused file and variable, and the
record of what was done. -/
structure World where
  cwd : String
  dirs : List String
  slot : Nat → File
  flag : Nat → Bool
  nextFile : Nat
  nextVar : Nat
  log : List Event

/-- How a captured run of an external command ends: it could not be started
(nothing was written), it was started and failed (what it wrote so far is
kept), or it succeeded. -/
inductive ProcResult where
  | launchFailure (err : GoError)
  | exitFailure (err : GoError) (stdout : String)
  | success (stdout : String)
deriving DecidableEq, Repr

/-- The answers of the operating system and of the external programs:
`os.Environ`, `os.Getenv`, the outcome of a captured probe command, the
outcome of `osutil.CopySpecialFile`, the search-path lookup of a non-empty
name, whether `os.Pipe` fails, and the outcome of a stage run with inherited
streams: its error and the directories that exist once it has ended. -/
structure Host where
  environ : List String
  getenv : String → String
  output : Cmd → ProcResult
  copy : String → String → Option GoError
  lookPath : String → Option String
  pipe : World → Option GoError
  run : Cmd → World → Option GoError × List String

/-- An effectful Go function: from the state before to a result and the state after. -/
abbrev Go (α : Type) := World → α × World

/-- The address of the variable `os.Stdout`. -/
def osStdout : Nat := 1

/-- The address of the variable `os.Stderr`. -/
def osStderr : Nat := 2

/-- `os.Getenv`. -/
def Getenv (h : Host) (key : String) : String := h.getenv key

/-- `os.Environ`. -/
def Environ (h : Host) : List String := h.environ

/-- `fmt.Errorf` with the message already formatted. -/
def Errorf (msg : String) : GoError := GoError.errorf msg

/-- `filepath.IsAbs` on Unix: the path starts with a slash. -/
def IsAbs (path : String) : Bool :=
  match path.data with
  | '/' :: _ => true
  | _ => false

/-- The directory a path names when the working directory is `cwd`. -/
def absPath (cwd path : String) : String :=
  if IsAbs path then path else cwd ++ "/" ++ path

/-- `os.Getwd`: the name of the working directory, or an error when it can no
longer be resolved. -/
def Getwd : Go (String × Option GoError) := fun w =>
  if w.cwd ∈ w.dirs then ((w.cwd, none), w)
  else (("", some (GoError.external "getwd: no such file or directory")), w)

/-- `os.Chdir`: enters the directory when it exists, else fails and stays. -/
def Chdir (dir : String) : Go (Option GoError) := fun w =>
  let w1 := { w with log := w.log ++ [Event.chdir dir] }
  if dir ≠ "" ∧ absPath w.cwd dir ∈ w.dirs then
    (none, { w1 with cwd := absPath w.cwd dir })
  else
    (some (GoError.external ("chdir " ++ dir ++ ": no such file or directory")), w1)

/-- The method `Output` of `exec.Cmd`: runs the command and returns what it wrote
to its standard output, together with the error of the run. -/
def Output (h : Host) (c : Cmd) : Go (String × Option GoError) := fun w =>
  let w1 := { w with log := w.log ++ [Event.output c] }
  match h.output c with
  | .launchFailure err => (("", some err), w1)
  | .exitFailure err stdout => ((stdout, some err), w1)
  | .success stdout => ((stdout, none), w1)

/-- The method `Run` of `exec.Cmd` for a command with inherited streams. -/
def Run (h : Host) (c : Cmd) : Go (Option GoError) := fun w =>
  let r := h.run c w
  (r.1, { w with dirs := r.2, log := w.log ++ [Event.run c r.1] })

/-- `exec.LookPath`: the empty name is never found, the search path lists directories. -/
def LookPath (h : Host) (file : String) : Go (Except GoError String) := fun w =>
  if file = "" then (.error (GoError.external "exec: no command"), w)
  else
    match h.lookPath file with
    | some path => (.ok path, w)
    | none => (.error (GoError.external "executable file not found in $PATH"), w)

/-- `osutil.CopySpecialFile`. -/
def CopySpecialFile (h : Host) (src dst : String) : Go (Option GoError) := fun w =>
  (h.copy src dst, { w with log := w.log ++ [Event.copy src dst] })

/-- `fmt.Println` of a command. -/
def Println (c : Cmd) : Go Unit := fun w =>
  ((), { w with log := w.log ++ [Event.println c] })

/-- `os.Pipe`: a fresh read end and write end, or an error and no change. -/
def Pipe (h : Host) : Go (Except GoError (File × File)) := fun w =>
  match h.pipe w with
  | some err => (.error err, w)
  | none => (.ok (w.nextFile, w.nextFile + 1), { w with nextFile := w.nextFile + 2 })

/-- The method `Close` of `*os.File`. -/
def Close (f : File) : Go Unit := fun w =>
  ((), { w with log := w.log ++ [Event.close f] })

/-! ## helper.go -/

/-- helper.go 14-32.  `toCap` is the address of the `*os.File` variable; the
variable `closed` of the returned closure lives at a fresh address. -/
def CaptureStd (h : Host) (toCap : Nat) : Go (Except GoError (File × Go Unit)) := fun w =>
  match Pipe h w with
  | (.error err, w1) => (.error err, w1)
  | (.ok (stdCap, stdCapW), w1) =>
    let oldStdCap := w1.slot toCap
    let w2 := { w1 with slot := Function.update w1.slot toCap stdCapW }
    let closed := w2.nextVar
    let w3 := { w2 with flag := Function.update w2.flag closed false, nextVar := closed + 1 }
    (.ok (stdCap, fun v =>
      -- only teardown once
      if v.flag closed then ((), v)
      else
        let v1 := { v with slot := Function.update v.slot toCap oldStdCap }
        let v2 := (Close stdCapW v1).2
        ((), { v2 with flag := Function.update v2.flag closed true })), w3)

/-- helper.go 40-45. -/
def GetHostArch (h : Host) : Go String := fun w =>
  let cmd := Command "dpkg" ["--print-architecture"]
  let r := Output h cmd w
  (TrimSpace r.1.1, r.2)

/-- helper.go 47-58: the name of the qemu binary for the specified arch. -/
def getQemuStaticForArch (arch : String) : String :=
  let archs : List (String × String) :=
    [("armhf", "qemu-arm-static"),
     ("arm64", "qemu-aarch64-static"),
     ("ppc64el", "qemu-ppc64le-static")]
  match archs.lookup arch with
  | some static => static
  | none => ""

/-- helper.go 130-135. -/
def GetHostSuite (h : Host) : Go String := fun w =>
  let cmd := Command "lsb_release" ["-c", "-s"]
  let r := Output h cmd w
  (TrimSpace r.1.1, r.2)

/-- helper.go 137-143: the error of `os.Getwd` is dropped, and so is the error
of the `os.Chdir` in the returned function. -/
def SaveCWD : Go (Go Unit) := fun w =>
  let r := Getwd w
  let wd := r.1.1
  (fun v => ((), (Chdir wd v).2), r.2)

/-- helper.go 64-65: the package-manager query for the support file. -/
def dpkgCommand : Cmd :=
  Command "bash" ["-c", "dpkg -L livecd-rootfs | grep \"auto$\""]

/-- helper.go 81-115: the two commands are set up, and the cross-build
arguments are added to `lbConfig` when the target is not the host. -/
def RunLiveBuild.assemble (h : Host) (arch : String) (env : List String)
    (enableCrossBuild : Bool) : Go (Except GoError (Cmd × Cmd)) := fun w1 =>
  -- set up "lb config" and "lb build" commands
  let lbConfig := Command "sudo" []
  let lbBuild := Command "sudo" []
  let lbConfig := { lbConfig with Env := some (Environ h ++ env) }
  let lbConfig := { lbConfig with Args := lbConfig.Args ++ env }
  let lbConfig := { lbConfig with Args := lbConfig.Args ++ ["lb", "config"] }
  let lbConfig := { lbConfig with Stdout := some (w1.slot osStdout) }
  let lbConfig := { lbConfig with Stderr := some (w1.slot osStderr) }
  let lbBuild := { lbBuild with Env := some (Environ h ++ env) }
  let lbBuild := { lbBuild with Args := lbBuild.Args ++ env }
  let lbBuild := { lbBuild with Args := lbBuild.Args ++ ["lb", "build"] }
  let lbBuild := { lbBuild with Stdout := some (w1.slot osStdout) }
  let lbBuild := { lbBuild with Stderr := some (w1.slot osStderr) }
  let hostArch := GetHostArch h w1
  if arch ≠ hostArch.1 ∧ enableCrossBuild = true then
    -- For cases where we want to cross-build, we need to pass
    -- additional options to live-build with the arch to use and path
    -- to the qemu static
    let qemuPath0 := Getenv h "UBUNTU_IMAGE_QEMU_USER_STATIC_PATH"
    let resolved : Except GoError String × World :=
      if qemuPath0 = "" then
        let static := getQemuStaticForArch arch
        match LookPath h static hostArch.2 with
        | (.error _, w) =>
          (.error (Errorf ("Use UBUNTU_IMAGE_QEMU_USER_STATIC_PATH in " ++
            "case of non-standard archs or custom paths")), w)
        | (.ok tmpQemuPath, w) => (.ok tmpQemuPath, w)
      else (.ok qemuPath0, hostArch.2)
    match resolved with
    | (.error err, w) => (.error err, w)
    | (.ok qemuPath, w) =>
      let qemuArgs := ["--bootstrap-qemu-arch", arch, "--bootstrap-qemu-static",
        qemuPath, "--architectures", arch]
      (.ok ({ lbConfig with Args := lbConfig.Args ++ qemuArgs }, lbBuild), w)
  else (.ok (lbConfig, lbBuild), hostArch.2)

/-- helper.go 117-127: now run the "lb config" and "lb build" commands. -/
def RunLiveBuild.execute (h : Host) (lbConfig lbBuild : Cmd) : Go (Option GoError) := fun w2 =>
  let w3 := (Println lbConfig w2).2
  match Run h lbConfig w3 with
  | (some err, w4) => (some err, w4)
  | (none, w4) =>
    let w5 := (Println lbBuild w4).2
    match Run h lbBuild w5 with
    | (some err, w6) => (some err, w6)
    | (none, w6) => (none, w6)

/-- helper.go 79-127: the part of `RunLiveBuild` that runs between the
`defer saveCWD()` and the deferred call. -/
def RunLiveBuild.guarded (h : Host) (rootfs arch : String) (env : List String)
    (enableCrossBuild : Bool) : Go (Option GoError) := fun w0 =>
  let w1 := (Chdir rootfs w0).2
  match RunLiveBuild.assemble h arch env enableCrossBuild w1 with
  | (.error err, w) => (some err, w)
  | (.ok (lbConfig, lbBuild), w2) => RunLiveBuild.execute h lbConfig lbBuild w2

/-- helper.go 60-128. -/
def RunLiveBuild (h : Host) (rootfs arch : String) (env : List String)
    (enableCrossBuild : Bool) : Go (Option GoError) := fun w0 =>
  let autoSrc0 := Getenv h "UBUNTU_IMAGE_LIVECD_ROOTFS_AUTO_PATH"
  let located : Except GoError String × World :=
    if autoSrc0 = "" then
      match Output h dpkgCommand w0 with
      | ((_, some err), w) => (.error err, w)
      | ((dpkgBytes, none), w) => (.ok (TrimSpace dpkgBytes), w)
    else (.ok autoSrc0, w0)
  match located with
  | (.error err, w) => (some err, w)
  | (.ok autoSrc, w1) =>
    let autoDst := rootfs ++ "/auto"
    match CopySpecialFile h autoSrc autoDst w1 with
    | (some err, w) => (some (Errorf ("Error copying livecd-rootfs/auto: " ++ err.Error)), w)
    | (none, w2) =>
      let saveCWD := SaveCWD w2
      let r := RunLiveBuild.guarded h rootfs arch env enableCrossBuild saveCWD.2
      (r.1, (saveCWD.1 r.2).2)

/-! ## Vocabulary of the specification -/

/-- The stage runs of a record, in order, each with the error it returned. -/
def stageRuns : List Event → List (Cmd × Option GoError)
  | [] => []
  | Event.run c err :: l => (c, err) :: stageRuns l
  | _ :: l => stageRuns l

/-- The six arguments of a cross build for `arch` with the emulation binary `q`. -/
def crossFlags (arch q : String) : List String :=
  ["--bootstrap-qemu-arch", arch, "--bootstrap-qemu-static", q, "--architectures", arch]

/-- The command of a stage as the specification describes it (4.5, step 4):
`sudo`, the entries of `env`, `lb` and the sub-command, then the flags; the
host environment followed by `env`; the streams of the process. -/
def stageCmd (h : Host) (w : World) (env : List String) (sub : String)
    (flags : List String) : Cmd :=
  { Path := "sudo"
    Args := ["sudo"] ++ env ++ ["lb", sub] ++ flags
    Env := some (h.environ ++ env)
    Stdout := some (w.slot osStdout)
    Stderr := some (w.slot osStderr) }

/-- The source of the support file when it is resolved: the override when it
is not empty, else the trimmed output of the package-manager query when that
query succeeds. -/
def autoSrcOf (h : Host) : Option String :=
  if h.getenv "UBUNTU_IMAGE_LIVECD_ROOTFS_AUTO_PATH" = "" then
    match h.output dpkgCommand with
    | .success stdout => some (TrimSpace stdout)
    | _ => none
  else some (h.getenv "UBUNTU_IMAGE_LIVECD_ROOTFS_AUTO_PATH")

/-- The support file is resolved and its copy to `rootfs/auto` succeeds. -/
def supportFileCopied (h : Host) (rootfs : String) : Bool :=
  match autoSrcOf h with
  | some src => (h.copy src (rootfs ++ "/auto")).isNone
  | none => false

/-- The emulation binary when it is resolved: the override when it is not
empty, else what the search-path lookup of the mapped name finds. -/
def qemuPathOf (h : Host) (arch : String) : Option String :=
  if h.getenv "UBUNTU_IMAGE_QEMU_USER_STATIC_PATH" = "" then
    if getQemuStaticForArch arch = "" then none else h.lookPath (getQemuStaticForArch arch)
  else some (h.getenv "UBUNTU_IMAGE_QEMU_USER_STATIC_PATH")

/-- The standard output a captured run leaves: nothing when it was not started. -/
def ProcResult.stdout : ProcResult → String
  | .launchFailure _ => ""
  | .exitFailure _ stdout => stdout
  | .success stdout => stdout

/-- The error of a captured run, if any. -/
def ProcResult.err : ProcResult → Option GoError
  | .launchFailure err => some err
  | .exitFailure err _ => some err
  | .success _ => none

/-- The message of the error that asks for the override. -/
def qemuHint : String :=
  "Use UBUNTU_IMAGE_QEMU_USER_STATIC_PATH in case of non-standard archs or custom paths"

/-- How the two stages went: the configure stage failed and was the only one
run, or it succeeded and the build stage was run after it and gave the result. -/
def StagesRan (cfg bld : Cmd) (ret : Option GoError) (runs : List (Cmd × Option GoError)) : Prop :=
  (∃ e, ret = some e ∧ runs = [(cfg, some e)]) ∨ runs = [(cfg, none), (bld, ret)]

/-- What `RunLiveBuild` does before the guard: the package-manager query when
no override is set, then the copy when the source is resolved. -/
def beforeGuard (h : Host) (rootfs : String) : List Event :=
  (if h.getenv "UBUNTU_IMAGE_LIVECD_ROOTFS_AUTO_PATH" = "" then [Event.output dpkgCommand] else []) ++
  (match autoSrcOf h with
   | some src => [Event.copy src (rootfs ++ "/auto")]
   | none => [])

/-- The error `RunLiveBuild` returns before the guard, if any. -/
def earlyError (h : Host) (rootfs : String) : Option GoError :=
  match autoSrcOf h with
  | none => (h.output dpkgCommand).err
  | some src =>
    match h.copy src (rootfs ++ "/auto") with
    | some err => some (Errorf ("Error copying livecd-rootfs/auto: " ++ err.Error))
    | none => none

/-- The state in which the stages are run: the directory change was asked
for and the host architecture was probed. -/
def atStages (rootfs : String) (w0 : World) : World :=
  { (Chdir rootfs w0).2 with
    log := (Chdir rootfs w0).2.log ++ [Event.output (Command "dpkg" ["--print-architecture"])] }

/-- The number of build-stage invocations among stage runs: the counter of a
substituted process runner. -/
def buildCount (env : List String) (runs : List (Cmd × Option GoError)) : Nat :=
  (runs.filter (fun p => decide (p.1.Args = ["sudo"] ++ env ++ ["lb", "build"]))).length

/-- The cross-build flags were added: some stage was run with the arguments
`sudo, env..., lb, config` followed by the six cross-build arguments. -/
def flagsAdded (env : List String) (arch : String) (runs : List (Cmd × Option GoError)) : Prop :=
  ∃ c res q, (c, res) ∈ runs ∧ c.Args = ["sudo"] ++ env ++ ["lb", "config"] ++ crossFlags arch q

/-- An event of a stage: a printed command or a run. -/
def isStageEvent : Event → Bool
  | Event.println _ => true
  | Event.run _ _ => true
  | _ => false

/-- The string `t` is `s` without its leading and trailing white space: `s` is
white space, then `t`, then white space, and `t` neither starts nor ends with
white space. -/
def IsTrimOf (s t : String) : Prop :=
  ∃ pre post : List Char, s.data = pre ++ t.data ++ post ∧
    (∀ c ∈ pre, isSpace c = true) ∧ (∀ c ∈ post, isSpace c = true) ∧
    (∀ c, t.data.head? = some c → isSpace c = false) ∧
    (∀ c, t.data.getLast? = some c → isSpace c = false)

/-! ## Hosts and processes of the examples -/

/-- An amd64 host with `qemu-aarch64-static` installed and no override set. -/
def amd64Host : Host :=
  { environ := ["PATH=/usr/bin"]
    getenv := fun key => if key = "PATH" then "/usr/bin" else ""
    output := fun c =>
      if c = Command "dpkg" ["--print-architecture"] then .success "amd64\n"
      else if c = Command "lsb_release" ["-c", "-s"] then .success "jammy\n"
      else if c = dpkgCommand then .success "/usr/share/livecd-rootfs/live-build/auto\n"
      else .launchFailure (GoError.external "executable file not found in $PATH")
    copy := fun _ _ => none
    lookPath := fun file =>
      if file = "qemu-aarch64-static" then some "/usr/bin/qemu-aarch64-static" else none
    pipe := fun _ => none
    run := fun _ w => (none, w.dirs) }

/-- A process in `/home/user` with the standard streams in place. -/
def homeWorld : World :=
  { cwd := "/home/user"
    dirs := ["/", "/home/user", "/tmp/rootfs"]
    slot := fun a => a
    flag := fun _ => false
    nextFile := 3
    nextVar := 0
    log := [] }

/-- A host whose probe commands print their answer and then exit with a failure. -/
def brokenProbeHost : Host :=
  { amd64Host with
    output := fun c =>
      if c = Command "dpkg" ["--print-architecture"] then
        .exitFailure (GoError.external "exit status 2") "amd64\n"
      else if c = Command "lsb_release" ["-c", "-s"] then
        .exitFailure (GoError.external "exit status 1") "jammy\n"
      else .launchFailure (GoError.external "executable file not found in $PATH") }

/-- A host on which every stage clears the cache directory of the build tree. -/
def cleaningHost : Host :=
  { amd64Host with
    run := fun _ w => (none, w.dirs.filter (fun d => d != "/tmp/rootfs/cache")) }

/-- A process started in the cache directory of the build tree. -/
def cacheWorld : World :=
  { homeWorld with
    cwd := "/tmp/rootfs/cache"
    dirs := ["/", "/tmp/rootfs", "/tmp/rootfs/cache"] }

/-- A host without the package `livecd-rootfs`: the query finds nothing. -/
def noSupportHost : Host :=
  { amd64Host with
    output := fun c =>
      if c = Command "dpkg" ["--print-architecture"] then .success "amd64\n"
      else if c = dpkgCommand then .exitFailure (GoError.external "exit status 1") ""
      else .launchFailure (GoError.external "executable file not found in $PATH") }

/-! ## Theorems -/

/-- An architecture outside the table has no emulation binary. -/
theorem getQemuStaticForArch_unknown (arch : String) (h1 : arch ≠ "armhf")
    (h2 : arch ≠ "arm64") (h3 : arch ≠ "ppc64el") : getQemuStaticForArch arch = "" := by
  have e1 : (arch == "armhf") = false := by simpa using h1
  have e2 : (arch == "arm64") = false := by simpa using h2
  have e3 : (arch == "ppc64el") = false := by simpa using h3
  simp [getQemuStaticForArch, List.lookup, e1, e2, e3]

/-- C4. `getQemuStaticForArch` is a total function that maps `armhf`, `arm64`
and `ppc64el` to their fixed binary names and every other string to the empty
string, also the strings that differ from a known token by case or by
surrounding white space; its result is non-empty exactly on the three tokens. -/
theorem getQemuStaticForArch_table :
    getQemuStaticForArch "armhf" = "qemu-arm-static" ∧
    getQemuStaticForArch "arm64" = "qemu-aarch64-static" ∧
    getQemuStaticForArch "ppc64el" = "qemu-ppc64le-static" ∧
    (∀ arch : String,
      (arch = "armhf" ∨ arch = "arm64" ∨ arch = "ppc64el") ∨ getQemuStaticForArch arch = "") ∧
    (∀ arch : String,
      getQemuStaticForArch arch ≠ "" ↔ (arch = "armhf" ∨ arch = "arm64" ∨ arch = "ppc64el")) ∧
    getQemuStaticForArch "ARM64" = "" ∧
    getQemuStaticForArch "Armhf" = "" ∧
    getQemuStaticForArch " arm64" = "" ∧
    getQemuStaticForArch "arm64\n" = "" ∧
    getQemuStaticForArch "ppc64el " = "" ∧
    getQemuStaticForArch "" = "" := by
  refine ⟨by decide, by decide, by decide, ?_, ?_, by decide, by decide, by decide, by decide,
    by decide, by decide⟩
  · intro arch
    by_cases h1 : arch = "armhf"
    · exact Or.inl (Or.inl h1)
    by_cases h2 : arch = "arm64"
    · exact Or.inl (Or.inr (Or.inl h2))
    by_cases h3 : arch = "ppc64el"
    · exact Or.inl (Or.inr (Or.inr h3))
    exact Or.inr (getQemuStaticForArch_unknown arch h1 h2 h3)
  · intro arch
    constructor
    · intro h
      by_cases h1 : arch = "armhf"
      · exact Or.inl h1
      by_cases h2 : arch = "arm64"
      · exact Or.inr (Or.inl h2)
      by_cases h3 : arch = "ppc64el"
      · exact Or.inr (Or.inr h3)
      exact absurd (getQemuStaticForArch_unknown arch h1 h2 h3) h
    · rintro (h | h | h) <;> subst h <;> decide

theorem stageRuns_append (l1 l2 : List Event) :
    stageRuns (l1 ++ l2) = stageRuns l1 ++ stageRuns l2 := by
  induction l1 with
  | nil => rfl
  | cons e l ih => cases e <;> simp [stageRuns, ih]

theorem Chdir_log (dir : String) (w : World) :
    (Chdir dir w).2.log = w.log ++ [Event.chdir dir] := by
  unfold Chdir
  split <;> rfl

theorem Chdir_dirs (dir : String) (w : World) : (Chdir dir w).2.dirs = w.dirs := by
  unfold Chdir
  split <;> rfl

theorem Chdir_slot (dir : String) (w : World) : (Chdir dir w).2.slot = w.slot := by
  unfold Chdir
  split <;> rfl

theorem Getwd_snd (w : World) : (Getwd w).2 = w := by
  unfold Getwd
  split <;> rfl

theorem Output_eq (h : Host) (c : Cmd) (w : World) :
    Output h c w =
      (((h.output c).stdout, (h.output c).err), { w with log := w.log ++ [Event.output c] }) := by
  unfold Output
  cases h.output c <;> rfl

/-- The value of `GetHostArch` does not depend on the state of the process. -/
theorem GetHostArch_fst (h : Host) (w : World) :
    (GetHostArch h w).1 = TrimSpace (h.output (Command "dpkg" ["--print-architecture"])).stdout := by
  simp only [GetHostArch, Output_eq]

theorem GetHostArch_snd (h : Host) (w : World) :
    (GetHostArch h w).2 =
      { w with log := w.log ++ [Event.output (Command "dpkg" ["--print-architecture"])] } := by
  simp only [GetHostArch, Output_eq]

theorem LookPath_eq (h : Host) (arch : String) (w : World)
    (hq : h.getenv "UBUNTU_IMAGE_QEMU_USER_STATIC_PATH" = "") :
    ((LookPath h (getQemuStaticForArch arch) w).1.toOption = qemuPathOf h arch) ∧
    (LookPath h (getQemuStaticForArch arch) w).2 = w := by
  unfold LookPath qemuPathOf
  by_cases hs : getQemuStaticForArch arch = ""
  · simp [hs, hq, Except.toOption]
  · cases hl : h.lookPath (getQemuStaticForArch arch) <;> simp [hs, hq, hl, Except.toOption]

/-- Lines 81-115 compute the commands the specification describes. -/
theorem assemble_eq (h : Host) (arch : String) (env : List String) (cross : Bool) (w : World) :
    RunLiveBuild.assemble h arch env cross w =
      (if arch ≠ (GetHostArch h w).1 ∧ cross = true then
        match qemuPathOf h arch with
        | none => Except.error (Errorf qemuHint)
        | some q => Except.ok (stageCmd h w env "config" (crossFlags arch q),
            stageCmd h w env "build" [])
      else Except.ok (stageCmd h w env "config" [], stageCmd h w env "build" []),
      { w with log := w.log ++ [Event.output (Command "dpkg" ["--print-architecture"])] }) := by
  unfold RunLiveBuild.assemble
  simp only [GetHostArch_snd, Getenv, Environ]
  by_cases hc : arch ≠ (GetHostArch h w).1 ∧ cross = true
  · rw [if_pos hc, if_pos hc]
    by_cases hq : h.getenv "UBUNTU_IMAGE_QEMU_USER_STATIC_PATH" = ""
    · rw [if_pos hq]
      have hl := LookPath_eq h arch
        { w with log := w.log ++ [Event.output (Command "dpkg" ["--print-architecture"])] } hq
      revert hl
      generalize LookPath h (getQemuStaticForArch arch) _ = r
      rcases r with ⟨r1, r2⟩
      rintro ⟨h1, h2⟩
      simp only at h1 h2
      subst h2
      cases r1 with
      | error e =>
        simp only [Except.toOption] at h1
        rw [← h1]
        rfl
      | ok p =>
        simp only [Except.toOption] at h1
        rw [← h1]
        simp [stageCmd, crossFlags, Command]
    · rw [if_neg hq]
      simp [qemuPathOf, hq, stageCmd, crossFlags, Command]
  · rw [if_neg hc, if_neg hc]
    simp [stageCmd, Command]

theorem execute_spec (h : Host) (cfg bld : Cmd) (w : World) :
    ∃ runs, StagesRan cfg bld (RunLiveBuild.execute h cfg bld w).1 runs ∧
      stageRuns (RunLiveBuild.execute h cfg bld w).2.log = stageRuns w.log ++ runs := by
  unfold RunLiveBuild.execute StagesRan
  simp only [Println, Run]
  generalize h.run cfg _ = r1
  rcases r1 with ⟨e1, d1⟩
  cases e1 with
  | some e => exact ⟨[(cfg, some e)], by simp [stageRuns_append, stageRuns]⟩
  | none =>
    simp only []
    generalize h.run bld _ = r2
    rcases r2 with ⟨e2, d2⟩
    cases e2 with
    | none => exact ⟨[(cfg, none), (bld, none)], by simp [stageRuns_append, stageRuns]⟩
    | some e => exact ⟨[(cfg, none), (bld, some e)], by simp [stageRuns_append, stageRuns]⟩

theorem RunLiveBuild_early (h : Host) (rootfs arch : String) (env : List String) (cross : Bool)
    (w : World) (hno : supportFileCopied h rootfs = false) :
    RunLiveBuild h rootfs arch env cross w =
      (earlyError h rootfs, { w with log := w.log ++ beforeGuard h rootfs }) ∧
    earlyError h rootfs ≠ none := by
  unfold RunLiveBuild supportFileCopied earlyError beforeGuard autoSrcOf at *
  simp only [Getenv, Output_eq, CopySpecialFile]
  by_cases ha : h.getenv "UBUNTU_IMAGE_LIVECD_ROOTFS_AUTO_PATH" = ""
  · simp only [ha, if_true] at hno ⊢
    cases ho : h.output dpkgCommand with
    | launchFailure e => simp [ProcResult.err, ProcResult.stdout]
    | exitFailure e out => simp [ProcResult.err, ProcResult.stdout]
    | success out =>
      simp only [ho] at hno
      cases hcp : h.copy (TrimSpace out) (rootfs ++ "/auto") with
      | none => simp [hcp] at hno
      | some e => simp [ProcResult.err, ProcResult.stdout, hcp]
  · simp only [ha, if_false] at hno ⊢
    cases hcp : h.copy (h.getenv "UBUNTU_IMAGE_LIVECD_ROOTFS_AUTO_PATH") (rootfs ++ "/auto") with
    | none => simp [hcp] at hno
    | some e => simp [hcp]

theorem RunLiveBuild_late (h : Host) (rootfs arch : String) (env : List String) (cross : Bool)
    (w : World) (hyes : supportFileCopied h rootfs = true) :
    RunLiveBuild h rootfs arch env cross w =
      ((RunLiveBuild.guarded h rootfs arch env cross
          { w with log := w.log ++ beforeGuard h rootfs }).1,
       (Chdir (Getwd { w with log := w.log ++ beforeGuard h rootfs }).1.1
          (RunLiveBuild.guarded h rootfs arch env cross
            { w with log := w.log ++ beforeGuard h rootfs }).2).2) := by
  unfold RunLiveBuild supportFileCopied beforeGuard autoSrcOf at *
  simp only [Getenv, Output_eq, CopySpecialFile, SaveCWD]
  by_cases ha : h.getenv "UBUNTU_IMAGE_LIVECD_ROOTFS_AUTO_PATH" = ""
  · simp only [ha, if_true] at hyes ⊢
    cases ho : h.output dpkgCommand with
    | launchFailure e => simp [ho] at hyes
    | exitFailure e out => simp [ho] at hyes
    | success out =>
      simp only [ho] at hyes
      cases hcp : h.copy (TrimSpace out) (rootfs ++ "/auto") with
      | some e => simp [hcp] at hyes
      | none => simp [ProcResult.err, ProcResult.stdout, hcp, Getwd_snd]
  · simp only [ha, if_false] at hyes ⊢
    cases hcp : h.copy (h.getenv "UBUNTU_IMAGE_LIVECD_ROOTFS_AUTO_PATH") (rootfs ++ "/auto") with
    | some e => simp [hcp] at hyes
    | none => simp [hcp, Getwd_snd]

theorem stageRuns_beforeGuard (h : Host) (rootfs : String) : stageRuns (beforeGuard h rootfs) = [] := by
  unfold beforeGuard
  split <;> split <;> simp [stageRuns]

theorem stageRuns_Chdir (dir : String) (w : World) :
    stageRuns (Chdir dir w).2.log = stageRuns w.log := by
  simp [Chdir_log, stageRuns_append, stageRuns]

theorem stageCmd_slot (h : Host) (w v : World) (env : List String) (sub : String)
    (flags : List String) (hs : w.slot = v.slot) :
    stageCmd h w env sub flags = stageCmd h v env sub flags := by
  simp [stageCmd, hs]

theorem guarded_eq (h : Host) (rootfs arch : String) (env : List String) (cross : Bool)
    (w0 : World) :
    RunLiveBuild.guarded h rootfs arch env cross w0 =
      if arch ≠ (GetHostArch h w0).1 ∧ cross = true then
        match qemuPathOf h arch with
        | none => (some (Errorf qemuHint), atStages rootfs w0)
        | some q => RunLiveBuild.execute h (stageCmd h w0 env "config" (crossFlags arch q))
            (stageCmd h w0 env "build" []) (atStages rootfs w0)
      else RunLiveBuild.execute h (stageCmd h w0 env "config" [])
        (stageCmd h w0 env "build" []) (atStages rootfs w0) := by
  unfold RunLiveBuild.guarded
  simp only [assemble_eq, GetHostArch_fst]
  have hslot : ((Chdir rootfs w0).2).slot = w0.slot := Chdir_slot rootfs w0
  simp only [stageCmd_slot h (Chdir rootfs w0).2 w0 env _ _ hslot]
  by_cases hc : arch ≠ TrimSpace (h.output (Command "dpkg" ["--print-architecture"])).stdout ∧
      cross = true
  · rw [if_pos hc, if_pos hc]
    cases qemuPathOf h arch <;> rfl
  · rw [if_neg hc, if_neg hc]
    rfl

theorem stageRuns_atStages (h : Host) (rootfs : String) (w : World) :
    stageRuns (atStages rootfs { w with log := w.log ++ beforeGuard h rootfs }).log =
      stageRuns w.log := by
  simp [atStages, stageRuns_append, stageRuns_Chdir, stageRuns_beforeGuard, stageRuns]

/-- The three ways a call of `RunLiveBuild` can go. -/
theorem RunLiveBuild_spec (h : Host) (rootfs arch : String) (env : List String) (cross : Bool)
    (w : World) :
    (supportFileCopied h rootfs = false ∧
      (RunLiveBuild h rootfs arch env cross w).1 = earlyError h rootfs ∧
      (RunLiveBuild h rootfs arch env cross w).1 ≠ none ∧
      stageRuns (RunLiveBuild h rootfs arch env cross w).2.log = stageRuns w.log) ∨
    (supportFileCopied h rootfs = true ∧
      (arch ≠ (GetHostArch h w).1 ∧ cross = true) ∧ qemuPathOf h arch = none ∧
      (RunLiveBuild h rootfs arch env cross w).1 = some (Errorf qemuHint) ∧
      stageRuns (RunLiveBuild h rootfs arch env cross w).2.log = stageRuns w.log) ∨
    (supportFileCopied h rootfs = true ∧
      ∃ flags runs,
        ((¬ (arch ≠ (GetHostArch h w).1 ∧ cross = true) ∧ flags = []) ∨
          ((arch ≠ (GetHostArch h w).1 ∧ cross = true) ∧
            ∃ q, qemuPathOf h arch = some q ∧ flags = crossFlags arch q)) ∧
        StagesRan (stageCmd h w env "config" flags) (stageCmd h w env "build" [])
          (RunLiveBuild h rootfs arch env cross w).1 runs ∧
        stageRuns (RunLiveBuild h rootfs arch env cross w).2.log = stageRuns w.log ++ runs) := by
  by_cases hsf : supportFileCopied h rootfs = true
  · right
    rw [RunLiveBuild_late h rootfs arch env cross w hsf]
    simp only [stageRuns_Chdir, guarded_eq, GetHostArch_fst]
    have hst : ∀ sub flags, stageCmd h { w with log := w.log ++ beforeGuard h rootfs } env sub flags =
        stageCmd h w env sub flags := fun sub flags => rfl
    simp only [hst]
    by_cases hc : arch ≠ TrimSpace (h.output (Command "dpkg" ["--print-architecture"])).stdout ∧
        cross = true
    · rw [if_pos hc]
      cases hq : qemuPathOf h arch with
      | none =>
        left
        exact ⟨hsf, hc, rfl, rfl, stageRuns_atStages h rootfs w⟩
      | some q =>
        right
        obtain ⟨runs, e1, e2⟩ := execute_spec h (stageCmd h w env "config" (crossFlags arch q))
          (stageCmd h w env "build" [])
          (atStages rootfs { w with log := w.log ++ beforeGuard h rootfs })
        rw [stageRuns_atStages] at e2
        exact ⟨hsf, _, runs, Or.inr ⟨hc, q, rfl, rfl⟩, e1, e2⟩
    · rw [if_neg hc]
      right
      obtain ⟨runs, e1, e2⟩ := execute_spec h (stageCmd h w env "config" [])
        (stageCmd h w env "build" [])
        (atStages rootfs { w with log := w.log ++ beforeGuard h rootfs })
      rw [stageRuns_atStages] at e2
      exact ⟨hsf, _, runs, Or.inl ⟨hc, rfl⟩, e1, e2⟩
  · left
    have hsf2 : supportFileCopied h rootfs = false := by simpa using hsf
    obtain ⟨h1, h2⟩ := RunLiveBuild_early h rootfs arch env cross w hsf2
    rw [h1]
    exact ⟨hsf2, rfl, h2, by simp [stageRuns_append, stageRuns_beforeGuard]⟩

/-- C2. For every input, the stages `RunLiveBuild` runs are none (it failed
before the configure stage: the support file was not copied or no emulation
binary was resolved), or the configure stage alone, which returned an
error `e`, and then `RunLiveBuild` returns exactly `e` and the build stage was
invoked zero times, or the configure stage, which succeeded, followed by the
build stage exactly once, and then `RunLiveBuild` returns what the build stage
returned (its error, or nil). -/
theorem RunLiveBuild_fail_fast (h : Host) (rootfs arch : String) (env : List String)
    (enableCrossBuild : Bool) (w : World) :
    ∃ runs,
      stageRuns (RunLiveBuild h rootfs arch env enableCrossBuild w).2.log =
        stageRuns w.log ++ runs ∧
      ((runs = [] ∧ (RunLiveBuild h rootfs arch env enableCrossBuild w).1 ≠ none ∧
          (supportFileCopied h rootfs = false ∨ qemuPathOf h arch = none)) ∨
       (∃ flags e,
          runs = [(stageCmd h w env "config" flags, some e)] ∧
          (RunLiveBuild h rootfs arch env enableCrossBuild w).1 = some e ∧
          buildCount env runs = 0) ∨
       (∃ flags,
          runs = [(stageCmd h w env "config" flags, none),
            (stageCmd h w env "build" [], (RunLiveBuild h rootfs arch env enableCrossBuild w).1)] ∧
          buildCount env runs = 1)) := by
  rcases RunLiveBuild_spec h rootfs arch env enableCrossBuild w with
    ⟨h1, -, h3, h4⟩ | ⟨-, -, h2, h3, h4⟩ | ⟨-, flags, runs, -, hran, hlog⟩
  · exact ⟨[], by simpa using h4, Or.inl ⟨rfl, h3, Or.inl h1⟩⟩
  · exact ⟨[], by simpa using h4, Or.inl ⟨rfl, by simp [h3], Or.inr h2⟩⟩
  · refine ⟨runs, hlog, Or.inr ?_⟩
    rcases hran with ⟨e, he, hr⟩ | hr
    · left
      refine ⟨flags, e, hr, he, ?_⟩
      subst hr
      simp [buildCount, stageCmd]
    · right
      refine ⟨flags, hr, ?_⟩
      subst hr
      simp [buildCount, stageCmd]

/-- C9. For every `env`, every stage `RunLiveBuild` runs is `sudo` with the
process environment `os.Environ()` followed by the entries of `env` in their
order, nothing removed; the configure stage has the arguments
`sudo, env..., lb, config` followed by the cross-build flags (none, or the six
of a cross build), the build stage has `sudo, env..., lb, build`; so the two
differ only in the sub-command and in the flags of the configure stage. The
configure stage is run unless the support file was not copied or no emulation
binary was resolved. -/
theorem RunLiveBuild_stage_environment (h : Host) (rootfs arch : String) (env : List String)
    (enableCrossBuild : Bool) (w : World) :
    ∃ flags lbConfig lbBuild runs,
      stageRuns (RunLiveBuild h rootfs arch env enableCrossBuild w).2.log =
        stageRuns w.log ++ runs ∧
      (runs.map Prod.fst = [] ∨ runs.map Prod.fst = [lbConfig] ∨
        runs.map Prod.fst = [lbConfig, lbBuild]) ∧
      lbConfig.Path = "sudo" ∧ lbBuild.Path = "sudo" ∧
      lbConfig.Env = some (h.environ ++ env) ∧
      lbBuild.Env = some (h.environ ++ env) ∧
      lbConfig.Args = ["sudo"] ++ env ++ ["lb", "config"] ++ flags ∧
      lbBuild.Args = ["sudo"] ++ env ++ ["lb", "build"] ∧
      (flags = [] ∨ ∃ q, flags = ["--bootstrap-qemu-arch", arch, "--bootstrap-qemu-static", q,
        "--architectures", arch]) ∧
      (supportFileCopied h rootfs = false ∨ qemuPathOf h arch = none ∨ runs ≠ []) := by
  rcases RunLiveBuild_spec h rootfs arch env enableCrossBuild w with
    ⟨h1, -, -, h4⟩ | ⟨-, -, h2, -, h4⟩ | ⟨-, flags, runs, hflags, hran, hlog⟩
  · exact ⟨[], stageCmd h w env "config" [], stageCmd h w env "build" [], [],
      by simpa using h4, Or.inl rfl, rfl, rfl, rfl, rfl, rfl, by simp [stageCmd], Or.inl rfl,
      Or.inl h1⟩
  · exact ⟨[], stageCmd h w env "config" [], stageCmd h w env "build" [], [],
      by simpa using h4, Or.inl rfl, rfl, rfl, rfl, rfl, rfl, by simp [stageCmd], Or.inl rfl,
      Or.inr (Or.inl h2)⟩
  · refine ⟨flags, stageCmd h w env "config" flags, stageCmd h w env "build" [], runs, hlog, ?_,
      rfl, rfl, rfl, rfl, rfl, by simp [stageCmd], ?_, ?_⟩
    · rcases hran with ⟨e, -, hr⟩ | hr
      · right; left; subst hr; rfl
      · right; right; subst hr; rfl
    · rcases hflags with ⟨-, hf⟩ | ⟨-, q, -, hf⟩
      · exact Or.inl hf
      · exact Or.inr ⟨q, hf⟩
    · right; right
      rcases hran with ⟨e, -, hr⟩ | hr <;> simp [hr]

theorem qemuPathOf_of_LookPath_ok (h : Host) (arch q : String) (w : World)
    (hq : (h.getenv "UBUNTU_IMAGE_QEMU_USER_STATIC_PATH" ≠ "" ∧
        q = h.getenv "UBUNTU_IMAGE_QEMU_USER_STATIC_PATH") ∨
      (h.getenv "UBUNTU_IMAGE_QEMU_USER_STATIC_PATH" = "" ∧
        (LookPath h (getQemuStaticForArch arch) w).1 = Except.ok q)) :
    qemuPathOf h arch = some q := by
  rcases hq with ⟨h1, h2⟩ | ⟨h1, h2⟩
  · simp [qemuPathOf, h1, h2]
  · rw [← (LookPath_eq h arch w h1).1, h2]
    rfl

theorem qemuPathOf_of_LookPath_error (h : Host) (arch : String) (w : World)
    (hunset : h.getenv "UBUNTU_IMAGE_QEMU_USER_STATIC_PATH" = "")
    (hfail : getQemuStaticForArch arch = "" ∨
      ∃ e, (LookPath h (getQemuStaticForArch arch) w).1 = Except.error e) :
    qemuPathOf h arch = none := by
  rcases hfail with h1 | ⟨e, h2⟩
  · simp [qemuPathOf, hunset, h1]
  · rw [← (LookPath_eq h arch w hunset).1, h2]
    rfl

/-- C3. When the support file is resolved and copied, `arch` differs from the
host architecture, cross build is enabled, and `q` is the value of
`UBUNTU_IMAGE_QEMU_USER_STATIC_PATH` when it is set (not empty) and else the
path that the search-path lookup of `getQemuStaticForArch arch` finds, the
configure stage is run with exactly the arguments `sudo, env..., lb, config`
followed by `--bootstrap-qemu-arch arch --bootstrap-qemu-static q
--architectures arch`, and whatever is run after it has the arguments
`sudo, env..., lb, build`. -/
theorem RunLiveBuild_cross_arguments (h : Host) (rootfs arch : String) (env : List String)
    (w : World) (q : String)
    (hreach : supportFileCopied h rootfs = true)
    (hne : arch ≠ (GetHostArch h w).1)
    (hq : (h.getenv "UBUNTU_IMAGE_QEMU_USER_STATIC_PATH" ≠ "" ∧
        q = h.getenv "UBUNTU_IMAGE_QEMU_USER_STATIC_PATH") ∨
      (h.getenv "UBUNTU_IMAGE_QEMU_USER_STATIC_PATH" = "" ∧
        (LookPath h (getQemuStaticForArch arch) w).1 = Except.ok q)) :
    ∃ lbConfig res rest,
      stageRuns (RunLiveBuild h rootfs arch env true w).2.log =
        stageRuns w.log ++ (lbConfig, res) :: rest ∧
      lbConfig.Args = ["sudo"] ++ env ++ ["lb", "config"] ++
        ["--bootstrap-qemu-arch", arch, "--bootstrap-qemu-static", q, "--architectures", arch] ∧
      ∀ c r, (c, r) ∈ rest → c.Args = ["sudo"] ++ env ++ ["lb", "build"] := by
  have hqp := qemuPathOf_of_LookPath_ok h arch q w hq
  rcases RunLiveBuild_spec h rootfs arch env true w with
    ⟨h1, -⟩ | ⟨-, -, h2, -⟩ | ⟨-, flags, runs, hflags, hran, hlog⟩
  · rw [hreach] at h1
    exact absurd h1 (by decide)
  · rw [hqp] at h2
    exact absurd h2 (by simp)
  · have hf : flags = crossFlags arch q := by
      rcases hflags with ⟨hc, -⟩ | ⟨-, q2, hq2, hf⟩
      · exact absurd ⟨hne, rfl⟩ hc
      · rw [hqp] at hq2
        cases hq2
        exact hf
    subst hf
    rcases hran with ⟨e, -, hr⟩ | hr
    · exact ⟨_, some e, [], by rw [hlog, hr], rfl, by simp⟩
    · refine ⟨_, none, [(stageCmd h w env "build" [], _)], by rw [hlog, hr], rfl, ?_⟩
      intro c r hc
      simp only [List.mem_singleton, Prod.mk.injEq] at hc
      rw [hc.1]
      simp [stageCmd]

/-- C3 at the example of the specification: host amd64, target arm64, no
override, the lookup finds `/usr/bin/qemu-aarch64-static`. -/
theorem RunLiveBuild_cross_arguments_witness :
    supportFileCopied amd64Host "/tmp/rootfs" = true ∧
    "arm64" ≠ (GetHostArch amd64Host homeWorld).1 ∧
    amd64Host.getenv "UBUNTU_IMAGE_QEMU_USER_STATIC_PATH" = "" ∧
    (LookPath amd64Host (getQemuStaticForArch "arm64") homeWorld).1 =
      Except.ok "/usr/bin/qemu-aarch64-static" ∧
    ∃ lbConfig res rest,
      stageRuns (RunLiveBuild amd64Host "/tmp/rootfs" "arm64" ["PROJECT=ubuntu-cpc"] true
        homeWorld).2.log = stageRuns homeWorld.log ++ (lbConfig, res) :: rest ∧
      lbConfig.Args = ["sudo", "PROJECT=ubuntu-cpc", "lb", "config",
        "--bootstrap-qemu-arch", "arm64", "--bootstrap-qemu-static",
        "/usr/bin/qemu-aarch64-static", "--architectures", "arm64"] ∧
      ∀ c r, (c, r) ∈ rest → c.Args = ["sudo", "PROJECT=ubuntu-cpc", "lb", "build"] :=
  ⟨by decide, by decide, by decide, rfl,
    RunLiveBuild_cross_arguments amd64Host "/tmp/rootfs" "arm64" ["PROJECT=ubuntu-cpc"] homeWorld
      "/usr/bin/qemu-aarch64-static" (by decide) (by decide) (Or.inr ⟨by decide, rfl⟩)⟩

/-- C7. When the support file is resolved and copied, `arch` differs from the
host architecture, cross build is enabled, the override
`UBUNTU_IMAGE_QEMU_USER_STATIC_PATH` is not set, and `getQemuStaticForArch arch`
is empty or the search-path lookup of the mapped name fails, `RunLiveBuild`
returns the error that tells the operator to use the override, and no stage
is run. -/
theorem RunLiveBuild_no_emulator (h : Host) (rootfs arch : String) (env : List String)
    (w : World)
    (hreach : supportFileCopied h rootfs = true)
    (hne : arch ≠ (GetHostArch h w).1)
    (hunset : h.getenv "UBUNTU_IMAGE_QEMU_USER_STATIC_PATH" = "")
    (hfail : getQemuStaticForArch arch = "" ∨
      ∃ e, (LookPath h (getQemuStaticForArch arch) w).1 = Except.error e) :
    (RunLiveBuild h rootfs arch env true w).1 =
      some (GoError.errorf
        "Use UBUNTU_IMAGE_QEMU_USER_STATIC_PATH in case of non-standard archs or custom paths") ∧
    stageRuns (RunLiveBuild h rootfs arch env true w).2.log = stageRuns w.log := by
  have hqp := qemuPathOf_of_LookPath_error h arch w hunset hfail
  rcases RunLiveBuild_spec h rootfs arch env true w with
    ⟨h1, -⟩ | ⟨-, -, -, h3, h4⟩ | ⟨-, flags, runs, hflags, -, -⟩
  · rw [hreach] at h1
    exact absurd h1 (by decide)
  · exact ⟨h3, h4⟩
  · rcases hflags with ⟨hc, -⟩ | ⟨-, q2, hq2, -⟩
    · exact absurd ⟨hne, rfl⟩ hc
    · rw [hqp] at hq2
      exact absurd hq2 (by simp)

/-- C7 at an input: host amd64, target riscv64, which has no mapping. -/
theorem RunLiveBuild_no_emulator_witness :
    supportFileCopied amd64Host "/tmp/rootfs" = true ∧
    "riscv64" ≠ (GetHostArch amd64Host homeWorld).1 ∧
    amd64Host.getenv "UBUNTU_IMAGE_QEMU_USER_STATIC_PATH" = "" ∧
    getQemuStaticForArch "riscv64" = "" ∧
    (RunLiveBuild amd64Host "/tmp/rootfs" "riscv64" [] true homeWorld).1 =
      some (GoError.errorf
        "Use UBUNTU_IMAGE_QEMU_USER_STATIC_PATH in case of non-standard archs or custom paths") ∧
    stageRuns (RunLiveBuild amd64Host "/tmp/rootfs" "riscv64" [] true homeWorld).2.log =
      stageRuns homeWorld.log :=
  ⟨by decide, by decide, by decide, by decide,
    RunLiveBuild_no_emulator amd64Host "/tmp/rootfs" "riscv64" [] homeWorld
      (by decide) (by decide) (by decide) (Or.inl (by decide))⟩

theorem not_flagsAdded_plain (env : List String) (arch : String) (res : Option GoError)
    (c : Cmd) (rest : List (Cmd × Option GoError))
    (hc : c.Args = ["sudo"] ++ env ++ ["lb", "config"])
    (hrest : ∀ b r, (b, r) ∈ rest → b.Args = ["sudo"] ++ env ++ ["lb", "build"]) :
    ¬ flagsAdded env arch ((c, res) :: rest) := by
  rintro ⟨c2, r2, q, hmem, hargs⟩
  rcases List.mem_cons.1 hmem with heq | hin
  · cases heq
    rw [hc] at hargs
    simp [crossFlags] at hargs
  · rw [hrest c2 r2 hin] at hargs
    simp [crossFlags] at hargs

/-- C1, as the code has it. When the support file is resolved and copied, the
cross-build flags are added to the arguments of the configure stage if and
only if `arch` differs from the host architecture, cross build is enabled and
the emulation binary is resolved (the override is set, or the search-path
lookup succeeds). When they are added they are exactly the three flags with
their values after `sudo, env..., lb, config`, and whatever is run after the
configure stage has the arguments `sudo, env..., lb, build`. When the target
differs, cross build is enabled and no emulation binary is resolved,
`RunLiveBuild` returns the error that asks for the override and no stage is
run. In every other case, so whenever `arch` is the host architecture, the
configure stage is run with `sudo, env..., lb, config` and nothing else. -/
theorem RunLiveBuild_cross_flags_iff (h : Host) (rootfs arch : String) (env : List String)
    (enableCrossBuild : Bool) (w : World) (hreach : supportFileCopied h rootfs = true) :
    ∃ runs,
      stageRuns (RunLiveBuild h rootfs arch env enableCrossBuild w).2.log =
        stageRuns w.log ++ runs ∧
      (flagsAdded env arch runs ↔
        (arch ≠ (GetHostArch h w).1 ∧ enableCrossBuild = true ∧
          ∃ q, qemuPathOf h arch = some q)) ∧
      (∀ q, (arch ≠ (GetHostArch h w).1 ∧ enableCrossBuild = true) → qemuPathOf h arch = some q →
        ∃ c res rest, runs = (c, res) :: rest ∧
          c.Args = ["sudo"] ++ env ++ ["lb", "config"] ++
            ["--bootstrap-qemu-arch", arch, "--bootstrap-qemu-static", q, "--architectures", arch] ∧
          ∀ b r, (b, r) ∈ rest → b.Args = ["sudo"] ++ env ++ ["lb", "build"]) ∧
      ((arch ≠ (GetHostArch h w).1 ∧ enableCrossBuild = true) → qemuPathOf h arch = none →
        runs = [] ∧
        (RunLiveBuild h rootfs arch env enableCrossBuild w).1 =
          some (GoError.errorf
            "Use UBUNTU_IMAGE_QEMU_USER_STATIC_PATH in case of non-standard archs or custom paths")) ∧
      (¬ (arch ≠ (GetHostArch h w).1 ∧ enableCrossBuild = true) →
        ∃ c res rest, runs = (c, res) :: rest ∧
          c.Args = ["sudo"] ++ env ++ ["lb", "config"] ∧
          ∀ b r, (b, r) ∈ rest → b.Args = ["sudo"] ++ env ++ ["lb", "build"]) := by
  rcases RunLiveBuild_spec h rootfs arch env enableCrossBuild w with
    ⟨h1, -⟩ | ⟨-, hc, hq, hret, hlog⟩ | ⟨-, flags, runs, hflags, hran, hlog⟩
  · rw [hreach] at h1
    exact absurd h1 (by decide)
  · refine ⟨[], by simpa using hlog, ?_, ?_, fun _ _ => ⟨rfl, hret⟩, fun hn => absurd hc hn⟩
    · constructor
      · rintro ⟨c, r, q, hmem, -⟩
        exact absurd hmem (List.not_mem_nil _)
      · rintro ⟨-, -, q, hq2⟩
        rw [hq] at hq2
        exact absurd hq2 (by simp)
    · intro q _ hq2
      rw [hq] at hq2
      exact absurd hq2 (by simp)
  · have hshape : ∃ res rest, runs = (stageCmd h w env "config" flags, res) :: rest ∧
        ∀ b r, (b, r) ∈ rest → b.Args = ["sudo"] ++ env ++ ["lb", "build"] := by
      rcases hran with ⟨e, -, hr⟩ | hr
      · exact ⟨some e, [], hr, by simp⟩
      · refine ⟨none, [(stageCmd h w env "build" [], _)], hr, ?_⟩
        intro b r hb
        simp only [List.mem_singleton, Prod.mk.injEq] at hb
        rw [hb.1]
        simp [stageCmd]
    obtain ⟨res, rest, hruns, hrest⟩ := hshape
    refine ⟨runs, hlog, ?_, ?_, ?_, ?_⟩
    · rcases hflags with ⟨hc, hf⟩ | ⟨hc, q, hq, hf⟩
      · constructor
        · intro hadd
          rw [hruns] at hadd
          exact absurd hadd (not_flagsAdded_plain env arch res _ rest (by simp [stageCmd, hf]) hrest)
        · rintro ⟨h1, h2, -⟩
          exact absurd ⟨h1, h2⟩ hc
      · constructor
        · intro _
          exact ⟨hc.1, hc.2, q, hq⟩
        · intro _
          exact ⟨_, res, q, by rw [hruns]; exact List.mem_cons_self _ _, by simp [stageCmd, hf]⟩
    · intro q hc hq
      rcases hflags with ⟨hn, -⟩ | ⟨-, q2, hq2, hf⟩
      · exact absurd hc hn
      · rw [hq] at hq2
        cases hq2
        exact ⟨_, res, rest, hruns, by simp [stageCmd, hf, crossFlags], hrest⟩
    · intro hc hq
      rcases hflags with ⟨hn, -⟩ | ⟨-, q2, hq2, -⟩
      · exact absurd hc hn
      · rw [hq] at hq2
        exact absurd hq2 (by simp)
    · intro hn
      rcases hflags with ⟨-, hf⟩ | ⟨hc, -⟩
      · exact ⟨_, res, rest, hruns, by simp [stageCmd, hf], hrest⟩
      · exact absurd hc hn

/-- C1, as the code has it, at an input: host amd64, target arm64, cross build
enabled, the emulation binary found: the flags are added. -/
theorem RunLiveBuild_cross_flags_iff_witness :
    supportFileCopied amd64Host "/tmp/rootfs" = true ∧
    ∃ runs,
      stageRuns (RunLiveBuild amd64Host "/tmp/rootfs" "arm64" [] true homeWorld).2.log =
        stageRuns homeWorld.log ++ runs ∧
      (flagsAdded [] "arm64" runs ↔
        ("arm64" ≠ (GetHostArch amd64Host homeWorld).1 ∧ true = true ∧
          ∃ q, qemuPathOf amd64Host "arm64" = some q)) ∧
      flagsAdded [] "arm64" runs := by
  refine ⟨by decide, ?_⟩
  obtain ⟨runs, h1, h2, -⟩ :=
    RunLiveBuild_cross_flags_iff amd64Host "/tmp/rootfs" "arm64" [] true homeWorld (by decide)
  exact ⟨runs, h1, h2, h2.2 ⟨by decide, rfl, "/usr/bin/qemu-aarch64-static", by decide⟩⟩

/-- C1 as stated fails. On an amd64 host with the support file copied, the
target `riscv64` and cross build enabled, the target differs from the host
architecture and cross build is enabled, yet no flag is added: no emulation
binary is resolved, `RunLiveBuild` returns the error and runs no stage. -/
theorem RunLiveBuild_cross_flags_not_iff :
    supportFileCopied amd64Host "/tmp/rootfs" = true ∧
    stageRuns (RunLiveBuild amd64Host "/tmp/rootfs" "riscv64" [] true homeWorld).2.log = [] ∧
    (RunLiveBuild amd64Host "/tmp/rootfs" "riscv64" [] true homeWorld).1 =
      some (GoError.errorf
        "Use UBUNTU_IMAGE_QEMU_USER_STATIC_PATH in case of non-standard archs or custom paths") ∧
    ¬ (flagsAdded [] "riscv64"
        (stageRuns (RunLiveBuild amd64Host "/tmp/rootfs" "riscv64" [] true homeWorld).2.log) ↔
      ("riscv64" ≠ (GetHostArch amd64Host homeWorld).1 ∧ true = true)) := by
  have hruns : stageRuns
      (RunLiveBuild amd64Host "/tmp/rootfs" "riscv64" [] true homeWorld).2.log = [] := by decide
  refine ⟨by decide, hruns, by decide, ?_⟩
  rw [hruns]
  intro hiff
  obtain ⟨c, r, q, hmem, -⟩ := hiff.2 ⟨by decide, rfl⟩
  exact absurd hmem (List.not_mem_nil _)

theorem execute_log (h : Host) (cfg bld : Cmd) (w : World) :
    ∃ evs, (RunLiveBuild.execute h cfg bld w).2.log = w.log ++ evs ∧
      ∀ e ∈ evs, isStageEvent e = true := by
  unfold RunLiveBuild.execute
  simp only [Println, Run]
  generalize h.run cfg _ = r1
  rcases r1 with ⟨e1, d1⟩
  cases e1 with
  | some e => exact ⟨[Event.println cfg, Event.run cfg (some e)], by simp [isStageEvent]⟩
  | none =>
    simp only []
    generalize h.run bld _ = r2
    rcases r2 with ⟨e2, d2⟩
    cases e2 with
    | none =>
      exact ⟨[Event.println cfg, Event.run cfg none, Event.println bld, Event.run bld none],
        by simp [isStageEvent]⟩
    | some e =>
      exact ⟨[Event.println cfg, Event.run cfg none, Event.println bld, Event.run bld (some e)],
        by simp [isStageEvent]⟩

theorem guarded_log (h : Host) (rootfs arch : String) (env : List String) (cross : Bool)
    (w0 : World) :
    ∃ evs, (RunLiveBuild.guarded h rootfs arch env cross w0).2.log =
        w0.log ++ [Event.chdir rootfs, Event.output (Command "dpkg" ["--print-architecture"])] ++ evs ∧
      ∀ e ∈ evs, isStageEvent e = true := by
  rw [guarded_eq]
  have hat : (atStages rootfs w0).log =
      w0.log ++ [Event.chdir rootfs, Event.output (Command "dpkg" ["--print-architecture"])] := by
    simp [atStages, Chdir_log]
  split
  · split
    · exact ⟨[], by simp [hat]⟩
    · obtain ⟨evs, h1, h2⟩ := execute_log h (stageCmd h w0 env "config" (crossFlags arch _))
        (stageCmd h w0 env "build" []) (atStages rootfs w0)
      exact ⟨evs, by rw [h1, hat], h2⟩
  · obtain ⟨evs, h1, h2⟩ := execute_log h (stageCmd h w0 env "config" [])
      (stageCmd h w0 env "build" []) (atStages rootfs w0)
    exact ⟨evs, by rw [h1, hat], h2⟩

/-- C10. For every input: when the override
`UBUNTU_IMAGE_LIVECD_ROOTFS_AUTO_PATH` is not set and the package-manager
query fails with `e`, `RunLiveBuild` returns `e` having done nothing but the
query; when the copy of the resolved support file to `rootfs/auto` fails with
`e`, it returns an error with the message `Error copying livecd-rootfs/auto: `
followed by the message of `e`, having done nothing but the query (if any) and
the copy; in both cases the working directory is untouched and no stage is
run. When the override is set, the first thing done is the copy from the
override's value, and the package-manager query is not made at all. -/
theorem RunLiveBuild_support_file (h : Host) (rootfs arch : String) (env : List String)
    (enableCrossBuild : Bool) (w : World) :
    (h.getenv "UBUNTU_IMAGE_LIVECD_ROOTFS_AUTO_PATH" = "" →
      ∀ e, (Output h dpkgCommand w).1.2 = some e →
        (RunLiveBuild h rootfs arch env enableCrossBuild w).1 = some e ∧
        (RunLiveBuild h rootfs arch env enableCrossBuild w).2 =
          { w with log := w.log ++ [Event.output dpkgCommand] } ∧
        (RunLiveBuild h rootfs arch env enableCrossBuild w).2.cwd = w.cwd ∧
        stageRuns (RunLiveBuild h rootfs arch env enableCrossBuild w).2.log = stageRuns w.log) ∧
    (∀ src e, autoSrcOf h = some src → h.copy src (rootfs ++ "/auto") = some e →
      (RunLiveBuild h rootfs arch env enableCrossBuild w).1 =
        some (GoError.errorf ("Error copying livecd-rootfs/auto: " ++ e.Error)) ∧
      (RunLiveBuild h rootfs arch env enableCrossBuild w).2 =
        { w with log := w.log ++
            (if h.getenv "UBUNTU_IMAGE_LIVECD_ROOTFS_AUTO_PATH" = "" then
              [Event.output dpkgCommand] else []) ++
            [Event.copy src (rootfs ++ "/auto")] } ∧
      (RunLiveBuild h rootfs arch env enableCrossBuild w).2.cwd = w.cwd ∧
      stageRuns (RunLiveBuild h rootfs arch env enableCrossBuild w).2.log = stageRuns w.log) ∧
    (h.getenv "UBUNTU_IMAGE_LIVECD_ROOTFS_AUTO_PATH" ≠ "" →
      ∃ evs, (RunLiveBuild h rootfs arch env enableCrossBuild w).2.log =
          w.log ++
            Event.copy (h.getenv "UBUNTU_IMAGE_LIVECD_ROOTFS_AUTO_PATH") (rootfs ++ "/auto") :: evs ∧
        Event.output dpkgCommand ∉ evs) := by
  refine ⟨?_, ?_, ?_⟩
  · intro hun e he
    rw [Output_eq] at he
    simp only at he
    have hauto : autoSrcOf h = none := by
      unfold autoSrcOf
      rw [if_pos hun]
      cases ho : h.output dpkgCommand with
      | success out => rw [ho] at he; simp [ProcResult.err] at he
      | launchFailure _ => rfl
      | exitFailure _ _ => rfl
    have hsf : supportFileCopied h rootfs = false := by simp [supportFileCopied, hauto]
    rw [(RunLiveBuild_early h rootfs arch env enableCrossBuild w hsf).1]
    simp [earlyError, beforeGuard, hauto, hun, he, stageRuns_append, stageRuns]
  · intro src e hsrc hcp
    have hsf : supportFileCopied h rootfs = false := by simp [supportFileCopied, hsrc, hcp]
    rw [(RunLiveBuild_early h rootfs arch env enableCrossBuild w hsf).1]
    refine ⟨by simp [earlyError, hsrc, hcp, Errorf], ?_, rfl, ?_⟩
    · simp [beforeGuard, hsrc]
    · simp [stageRuns_append, stageRuns_beforeGuard]
  · intro hset
    have hauto : autoSrcOf h = some (h.getenv "UBUNTU_IMAGE_LIVECD_ROOTFS_AUTO_PATH") := by
      simp [autoSrcOf, hset]
    have hpre : beforeGuard h rootfs =
        [Event.copy (h.getenv "UBUNTU_IMAGE_LIVECD_ROOTFS_AUTO_PATH") (rootfs ++ "/auto")] := by
      simp [beforeGuard, hauto, hset]
    by_cases hsf : supportFileCopied h rootfs = true
    · rw [RunLiveBuild_late h rootfs arch env enableCrossBuild w hsf, Chdir_log]
      obtain ⟨evs, h1, h2⟩ := guarded_log h rootfs arch env enableCrossBuild
        { w with log := w.log ++ beforeGuard h rootfs }
      rw [h1, hpre]
      refine ⟨[Event.chdir rootfs, Event.output (Command "dpkg" ["--print-architecture"])] ++ evs ++
        [Event.chdir (Getwd { w with log := w.log ++ beforeGuard h rootfs }).1.1], by simp [hpre], ?_⟩
      intro hmem
      simp only [List.mem_append, List.mem_cons, List.mem_singleton, List.not_mem_nil,
        or_false] at hmem
      rcases hmem with ((hm | hm) | hm) | hm
      · cases hm
      · exact absurd hm (by decide)
      · have := h2 _ hm
        simp [isStageEvent] at this
      · cases hm
    · have hsf2 : supportFileCopied h rootfs = false := by simpa using hsf
      rw [(RunLiveBuild_early h rootfs arch env enableCrossBuild w hsf2).1, hpre]
      exact ⟨[], rfl, List.not_mem_nil _⟩

/-- C10 at an input: no override, and the package-manager query fails. -/
theorem RunLiveBuild_support_file_witness :
    noSupportHost.getenv "UBUNTU_IMAGE_LIVECD_ROOTFS_AUTO_PATH" = "" ∧
    (Output noSupportHost dpkgCommand homeWorld).1.2 = some (GoError.external "exit status 1") ∧
    (RunLiveBuild noSupportHost "/tmp/rootfs" "arm64" [] true homeWorld).1 =
      some (GoError.external "exit status 1") ∧
    (RunLiveBuild noSupportHost "/tmp/rootfs" "arm64" [] true homeWorld).2 =
      { homeWorld with log := homeWorld.log ++ [Event.output dpkgCommand] } :=
  ⟨by decide, by decide,
    ((RunLiveBuild_support_file noSupportHost "/tmp/rootfs" "arm64" [] true homeWorld).1
      (by decide) (GoError.external "exit status 1") (by decide)).1,
    ((RunLiveBuild_support_file noSupportHost "/tmp/rootfs" "arm64" [] true homeWorld).1
      (by decide) (GoError.external "exit status 1") (by decide)).2.1⟩

theorem head?_dropWhile_isSpace (l : List Char) (c : Char)
    (hc : (l.dropWhile isSpace).head? = some c) : isSpace c = false := by
  have := List.head?_dropWhile_not isSpace l
  rw [hc] at this
  exact this

theorem TrimSpace_spec (s : String) : IsTrimOf s (TrimSpace s) := by
  refine ⟨s.data.takeWhile isSpace,
    (((s.data.dropWhile isSpace).reverse).takeWhile isSpace).reverse, ?_, ?_, ?_, ?_, ?_⟩
  · have h1 := List.takeWhile_append_dropWhile isSpace (s.data.dropWhile isSpace).reverse
    have h2 := congrArg List.reverse h1
    rw [List.reverse_append, List.reverse_reverse] at h2
    have h3 := List.takeWhile_append_dropWhile isSpace s.data
    simp only [TrimSpace]
    rw [List.append_assoc, h2, h3]
  · intro c hc
    exact List.mem_takeWhile_imp hc
  · intro c hc
    exact List.mem_takeWhile_imp (List.mem_reverse.1 hc)
  · intro c hc
    simp only [TrimSpace] at hc
    have h1 := List.takeWhile_append_dropWhile isSpace (s.data.dropWhile isSpace).reverse
    have h2 := congrArg List.reverse h1
    rw [List.reverse_append, List.reverse_reverse] at h2
    have h3 : (s.data.dropWhile isSpace).head? = some c := by
      rw [← h2, List.head?_append, hc]
      rfl
    exact head?_dropWhile_isSpace _ _ h3
  · intro c hc
    simp only [TrimSpace, List.getLast?_reverse] at hc
    exact head?_dropWhile_isSpace _ _ hc

theorem GetHostSuite_fst (h : Host) (w : World) :
    (GetHostSuite h w).1 = TrimSpace (h.output (Command "lsb_release" ["-c", "-s"])).stdout := by
  simp only [GetHostSuite, Output_eq]

/-- C8, as the code has it. Both probes return a string and never an error.
When the probe command cannot be started the result is the empty string;
when it was started, whether it then succeeded or failed, the result is what
it wrote to its standard output without the leading and trailing white
space. -/
theorem host_probes_trimmed_output (h : Host) (w : World) :
    (match h.output (Command "dpkg" ["--print-architecture"]) with
      | .launchFailure _ => (GetHostArch h w).1 = ""
      | .exitFailure _ stdout => IsTrimOf stdout (GetHostArch h w).1
      | .success stdout => IsTrimOf stdout (GetHostArch h w).1) ∧
    (match h.output (Command "lsb_release" ["-c", "-s"]) with
      | .launchFailure _ => (GetHostSuite h w).1 = ""
      | .exitFailure _ stdout => IsTrimOf stdout (GetHostSuite h w).1
      | .success stdout => IsTrimOf stdout (GetHostSuite h w).1) := by
  rw [GetHostArch_fst, GetHostSuite_fst]
  constructor
  · cases h.output (Command "dpkg" ["--print-architecture"]) with
    | launchFailure e => rfl
    | exitFailure e out => exact TrimSpace_spec out
    | success out => exact TrimSpace_spec out
  · cases h.output (Command "lsb_release" ["-c", "-s"]) with
    | launchFailure e => rfl
    | exitFailure e out => exact TrimSpace_spec out
    | success out => exact TrimSpace_spec out

/-- C8 as stated fails. On a host whose probe commands exit with a failure
after writing to their standard output, the probes fail and the functions do
not return the empty string: they return the trimmed output. -/
theorem host_probes_failure_not_empty :
    (Output brokenProbeHost (Command "dpkg" ["--print-architecture"]) homeWorld).1.2 =
      some (GoError.external "exit status 2") ∧
    (GetHostArch brokenProbeHost homeWorld).1 = "amd64" ∧
    (GetHostArch brokenProbeHost homeWorld).1 ≠ "" ∧
    (Output brokenProbeHost (Command "lsb_release" ["-c", "-s"]) homeWorld).1.2 =
      some (GoError.external "exit status 1") ∧
    (GetHostSuite brokenProbeHost homeWorld).1 = "jammy" ∧
    (GetHostSuite brokenProbeHost homeWorld).1 ≠ "" := by
  refine ⟨by decide, by decide, by decide, by decide, by decide, by decide⟩

theorem IsAbs_ne_empty (d : String) (habs : IsAbs d = true) : d ≠ "" := by
  intro he
  subst he
  exact absurd habs (by decide)

/-- Entering an absolute directory that exists lands in it, from anywhere. -/
theorem Chdir_abs (d : String) (v : World) (habs : IsAbs d = true) (hin : d ∈ v.dirs) :
    (Chdir d v).2.cwd = d := by
  unfold Chdir
  have hp : absPath v.cwd d = d := by simp [absPath, habs]
  rw [hp, if_pos ⟨IsAbs_ne_empty d habs, hin⟩]

theorem Chdir_empty (v : World) : (Chdir "" v).2.cwd = v.cwd := by
  unfold Chdir
  rw [if_neg (fun hh => hh.1 rfl)]

theorem Chdir_missing (d : String) (v : World) (habs : IsAbs d = true) (hout : d ∉ v.dirs) :
    (Chdir d v).2.cwd = v.cwd := by
  unfold Chdir
  have hp : absPath v.cwd d = d := by simp [absPath, habs]
  rw [hp, if_neg (fun hh => hout hh.2)]

theorem Getwd_ok (w : World) (hin : w.cwd ∈ w.dirs) : (Getwd w).1.1 = w.cwd := by
  unfold Getwd
  rw [if_pos hin]

theorem Getwd_fail (w : World) (hout : w.cwd ∉ w.dirs) : (Getwd w).1.1 = "" := by
  unfold Getwd
  rw [if_neg hout]

/-- C5, as the code has it. On the exits of `RunLiveBuild` before the guard
(support-file lookup failure, copy failure) the working directory is never
changed. On every exit, if the working directory of the call could be
resolved by `os.Getwd` and can still be entered when `RunLiveBuild` returns,
the working directory on return is the one of the call. The action returned
by `SaveCWD` restores the directory that was current at the call of `SaveCWD`
from any later state, whatever directory changes were made in between,
provided that directory could be resolved and can be entered when the action
runs; when it could not be resolved, or cannot be entered any more, the
errors are dropped and the action leaves the working directory where it is. -/
theorem RunLiveBuild_restores_cwd (h : Host) (rootfs arch : String) (env : List String)
    (enableCrossBuild : Bool) (w : World) :
    (supportFileCopied h rootfs = false →
      (RunLiveBuild h rootfs arch env enableCrossBuild w).2.cwd = w.cwd ∧
      ∀ d, Event.chdir d ∉ (RunLiveBuild h rootfs arch env enableCrossBuild w).2.log.drop
        w.log.length) ∧
    (IsAbs w.cwd = true → w.cwd ∈ w.dirs →
      w.cwd ∈ (RunLiveBuild h rootfs arch env enableCrossBuild w).2.dirs →
      (RunLiveBuild h rootfs arch env enableCrossBuild w).2.cwd = w.cwd) ∧
    (∀ v : World, IsAbs w.cwd = true → w.cwd ∈ w.dirs → w.cwd ∈ v.dirs →
      ((SaveCWD w).1 v).2.cwd = w.cwd) ∧
    (∀ v : World, w.cwd ∉ w.dirs → ((SaveCWD w).1 v).2.cwd = v.cwd) ∧
    (∀ v : World, IsAbs w.cwd = true → w.cwd ∈ w.dirs → w.cwd ∉ v.dirs →
      ((SaveCWD w).1 v).2.cwd = v.cwd) := by
  refine ⟨?_, ?_, ?_, ?_, ?_⟩
  · intro hsf
    rw [(RunLiveBuild_early h rootfs arch env enableCrossBuild w hsf).1]
    refine ⟨rfl, ?_⟩
    intro d hd
    simp only [List.drop_left] at hd
    unfold beforeGuard at hd
    split at hd <;> split at hd <;> simp at hd
  · intro habs hin hlater
    by_cases hsf : supportFileCopied h rootfs = true
    · rw [RunLiveBuild_late h rootfs arch env enableCrossBuild w hsf] at hlater ⊢
      rw [Chdir_dirs] at hlater
      have hwd : (Getwd { w with log := w.log ++ beforeGuard h rootfs }).1.1 = w.cwd :=
        Getwd_ok { w with log := w.log ++ beforeGuard h rootfs } hin
      simp only [hwd]
      exact Chdir_abs w.cwd _ habs hlater
    · have hsf2 : supportFileCopied h rootfs = false := by simpa using hsf
      rw [(RunLiveBuild_early h rootfs arch env enableCrossBuild w hsf2).1]
  · intro v habs hin hlater
    simp only [SaveCWD, Getwd_ok w hin]
    exact Chdir_abs w.cwd v habs hlater
  · intro v hout
    simp only [SaveCWD, Getwd_fail w hout]
    exact Chdir_empty v
  · intro v habs hin hgone
    simp only [SaveCWD, Getwd_ok w hin]
    exact Chdir_missing w.cwd v habs hgone

/-- C5, as the code has it, at an input: a cross build from `/home/user`. -/
theorem RunLiveBuild_restores_cwd_witness :
    IsAbs homeWorld.cwd = true ∧
    homeWorld.cwd ∈ homeWorld.dirs ∧
    homeWorld.cwd ∈ (RunLiveBuild amd64Host "/tmp/rootfs" "arm64" [] true homeWorld).2.dirs ∧
    (RunLiveBuild amd64Host "/tmp/rootfs" "arm64" [] true homeWorld).2.cwd = homeWorld.cwd :=
  ⟨by decide, by decide, by decide,
    (RunLiveBuild_restores_cwd amd64Host "/tmp/rootfs" "arm64" [] true homeWorld).2.1
      (by decide) (by decide) (by decide)⟩

/-- C5 as stated fails. A process calls `RunLiveBuild` from a directory that
the configure stage removes: both stages succeed, `RunLiveBuild` returns nil,
the deferred `os.Chdir` fails, its error is dropped, and the working directory
on return is `rootfs`, not the directory of the call. -/
theorem RunLiveBuild_cwd_not_restored :
    cacheWorld.cwd = "/tmp/rootfs/cache" ∧
    (RunLiveBuild cleaningHost "/tmp/rootfs" "amd64" [] false cacheWorld).1 = none ∧
    (RunLiveBuild cleaningHost "/tmp/rootfs" "amd64" [] false cacheWorld).2.cwd = "/tmp/rootfs" ∧
    (RunLiveBuild cleaningHost "/tmp/rootfs" "amd64" [] false cacheWorld).2.cwd ≠ cacheWorld.cwd := by
  refine ⟨by decide, by decide, by decide, by decide⟩

/-- What `CaptureStd` returns when the pipe is created. -/
theorem CaptureStd_ok (h : Host) (toCap : Nat) (w : World) (stdCap : File)
    (teardown : Go Unit) (w1 : World)
    (hok : CaptureStd h toCap w = (Except.ok (stdCap, teardown), w1)) :
    stdCap = w.nextFile ∧
    w1 = { w with
      slot := Function.update w.slot toCap (w.nextFile + 1)
      flag := Function.update w.flag w.nextVar false
      nextFile := w.nextFile + 2
      nextVar := w.nextVar + 1 } ∧
    teardown = (fun v =>
      if v.flag w.nextVar then ((), v)
      else ((), { v with
        slot := Function.update v.slot toCap (w.slot toCap)
        log := v.log ++ [Event.close (w.nextFile + 1)]
        flag := Function.update v.flag w.nextVar true })) := by
  unfold CaptureStd Pipe at hok
  cases hp : h.pipe w with
  | some e => simp [hp] at hok
  | none =>
    simp only [hp, Close] at hok
    simp only [Prod.mk.injEq, Except.ok.injEq] at hok
    obtain ⟨⟨h1, h2⟩, h3⟩ := hok
    exact ⟨h1.symm, h3.symm, h2.symm⟩

/-- C6. When `CaptureStd` succeeds on a slot, the slot holds the write end of
the pipe. The first call of the teardown puts back the value the slot had
before `CaptureStd` and closes the write end, once, in whatever state it is
made. Every later call changes
nothing: in any state in which the closure's variable `closed` is still set,
the teardown returns the state as it is. So after any number of further
calls, with anything done in between that leaves `closed` alone (it is
private to the closure), the state is what these other actions alone make of
the state after the first call: a slot reassigned after the first teardown
keeps its new value, the write end is not closed again, and `n + 1` calls in
a row leave the state of one call. -/
theorem CaptureStd_teardown_once (h : Host) (toCap : Nat) (w : World) (stdCap : File)
    (teardown : Go Unit) (w1 : World)
    (hok : CaptureStd h toCap w = (Except.ok (stdCap, teardown), w1)) :
    w1.slot toCap = w.nextFile + 1 ∧
    (teardown w1).2.slot toCap = w.slot toCap ∧
    (teardown w1).2.log = w1.log ++ [Event.close (w.nextFile + 1)] ∧
    (∀ v : World, v.flag w.nextVar = false →
      (teardown v).2.slot toCap = w.slot toCap ∧
      (teardown v).2.log = v.log ++ [Event.close (w.nextFile + 1)] ∧
      (teardown v).2.flag w.nextVar = true) ∧
    (∀ v : World, v.flag w.nextVar = true → (teardown v).2 = v) ∧
    (∀ f : File, (teardown { (teardown w1).2 with
        slot := Function.update (teardown w1).2.slot toCap f }).2 =
      { (teardown w1).2 with slot := Function.update (teardown w1).2.slot toCap f }) ∧
    (∀ between : List (World → World),
      (∀ g ∈ between, ∀ x : World, (g x).flag w.nextVar = x.flag w.nextVar) →
      between.foldl (fun s g => (teardown (g s)).2) (teardown w1).2 =
        between.foldl (fun s g => g s) (teardown w1).2) ∧
    (∀ n : Nat, (fun s => (teardown s).2)^[n + 1] w1 = (teardown w1).2) := by
  obtain ⟨-, hw1, htd⟩ := CaptureStd_ok h toCap w stdCap teardown w1 hok
  subst hw1
  subst htd
  have hfirst : ∀ v : World, v.flag w.nextVar = true →
      ((fun v : World =>
        if v.flag w.nextVar then ((), v)
        else ((), { v with
          slot := Function.update v.slot toCap (w.slot toCap)
          log := v.log ++ [Event.close (w.nextFile + 1)]
          flag := Function.update v.flag w.nextVar true })) v).2 = v := by
    intro v hv
    simp [hv]
  refine ⟨by simp, by simp, by simp, ?_, hfirst, ?_, ?_, ?_⟩
  · intro v hv
    simp [hv]
  · intro f
    apply hfirst
    simp
  · intro between
    have key : ∀ (l : List (World → World)) (s : World), s.flag w.nextVar = true →
        (∀ g ∈ l, ∀ x : World, (g x).flag w.nextVar = x.flag w.nextVar) →
        l.foldl (fun s g => ((fun v : World =>
          if v.flag w.nextVar then ((), v)
          else ((), { v with
            slot := Function.update v.slot toCap (w.slot toCap)
            log := v.log ++ [Event.close (w.nextFile + 1)]
            flag := Function.update v.flag w.nextVar true })) (g s)).2) s =
          l.foldl (fun s g => g s) s := by
      intro l
      induction l with
      | nil => intro s _ _; rfl
      | cons g l ih =>
        intro s hs hg
        have hgs : (g s).flag w.nextVar = true := by
          rw [hg g (List.mem_cons_self _ _) s, hs]
        simp only [List.foldl_cons]
        rw [hfirst (g s) hgs]
        exact ih (g s) hgs (fun g2 hg2 => hg g2 (List.mem_cons_of_mem _ hg2))
    intro hb
    exact key between _ (by simp) hb
  · intro n
    induction n with
    | zero => rfl
    | succ n ih =>
      rw [Function.iterate_succ_apply', ih]
      apply hfirst
      simp

/-- C6 at an input: capturing `os.Stdout` on a host where the pipe is created. -/
theorem CaptureStd_teardown_once_witness :
    ∃ stdCap teardown w1,
      CaptureStd amd64Host osStdout homeWorld = (Except.ok (stdCap, teardown), w1) ∧
      w1.slot osStdout = 4 ∧
      (teardown w1).2.slot osStdout = 1 ∧
      (teardown w1).2.log = [Event.close 4] ∧
      (fun s => (teardown s).2)^[3] w1 = (teardown w1).2 := by
  refine ⟨_, _, _, rfl, ?_⟩
  have hw := CaptureStd_teardown_once amd64Host osStdout homeWorld _ _ _ rfl
  exact ⟨hw.1, hw.2.1, hw.2.2.1, hw.2.2.2.2.2.2.2 2⟩

end Helper
